import Mathlib

/-!
Verification of the MCP todo-widget server (`mcp-for-next.js`).

The embedding mirrors the two components that the testable properties of
the specification talk about:

* the Resource & Tool Host in `src/app/page.tsx`: an in-memory task
  collection `todos`, a counter `nextId` starting at 1, and the three tool
  handlers `add_todo`, `complete_todo`, `list_todos`, each of which returns
  content blocks, a structured-content object and a metadata entry built
  from the post-operation collection;
* the HTML Post-Processor `processWidgetHtml` in the build script, which
  inserts a fixed data-injection script before the first literal `</body>`
  (JavaScript `String.replace` with a string pattern replaces only the
  first occurrence) or appends it when no closing body tag exists.

Strings handled by the post-processor are modelled as `List Char`; the JSON
serialisation `JSON.stringify({ tasks })` used for the `<widget-data>` text
block is modelled character-for-character, including its escaping rules.
-/

/-- A todo item, `{ id: string; title: string; completed: boolean }`. -/
structure Todo where
  id : String
  title : String
  completed : Bool
deriving DecidableEq, Repr

/-- The process-wide mutable state of the tool host:
`let todos = []` and `let nextId = 1`. -/
structure TodoState where
  todos : List Todo
  nextId : Nat
deriving DecidableEq, Repr

/-- The initial state of the host process: empty collection, counter 1. -/
def initialState : TodoState := { todos := [], nextId := 1 }

/-- One entry of the `content` array of a response; every block produced by the
three handlers has `type: "text"`. -/
structure ContentBlock where
  type : String
  text : String
deriving DecidableEq, Repr

/-- A tool response: the `content` array, the `structuredContent` object
(its `tasks` field) and the `_meta["openai/widgetData"]` object (its
`tasks` field). -/
structure ToolResponse where
  content : List ContentBlock
  structuredContent : List Todo
  widgetData : List Todo
deriving DecidableEq, Repr

/-- Escaping by `JSON.stringify` of one character inside a string literal
(ECMA-262 `QuoteJSONString`): quote, backslash and the named control
escapes, `\u00xx` for the remaining code points below 32, everything else
verbatim. -/
def jsonEscapeChar (c : Char) : String :=
  if c = '"' then "\\\""
  else if c = '\\' then "\\\\"
  else if c = '\x08' then "\\b"
  else if c = '\x0c' then "\\f"
  else if c = '\n' then "\\n"
  else if c = '\r' then "\\r"
  else if c = '\t' then "\\t"
  else if c.toNat < 32 then
    "\\u00" ++ String.singleton (Nat.digitChar (c.toNat / 16)) ++
      String.singleton (Nat.digitChar (c.toNat % 16))
  else String.singleton c

/-- The body of a JSON string literal: each character quoted in turn. -/
def jsonEscapeString (s : String) : String :=
  s.data.foldr (fun c acc => jsonEscapeChar c ++ acc) ""

/-- Serialisation `JSON.stringify` of a string value. -/
def jsonString (s : String) : String :=
  "\"" ++ jsonEscapeString s ++ "\""

/-- Serialisation `JSON.stringify` of a boolean value. -/
def jsonBool (b : Bool) : String := if b then "true" else "false"

/-- Serialisation `JSON.stringify` of one task object; key order is the object-literal
insertion order `id`, `title`, `completed`. -/
def jsonTask (t : Todo) : String :=
  "\x7b\"id\":" ++ jsonString t.id ++ ",\"title\":" ++ jsonString t.title ++
    ",\"completed\":" ++ jsonBool t.completed ++ "\x7d"

/-- Comma-separated join of serialised array elements, as `JSON.stringify`
produces for an array. -/
def jsonList : List String → String
  | [] => ""
  | [x] => x
  | x :: xs => x ++ "," ++ jsonList xs

/-- Serialisation `JSON.stringify({ tasks: todos })`. -/
def jsonTasks (ts : List Todo) : String :=
  "\x7b\"tasks\":[" ++ jsonList (ts.map jsonTask) ++ "]\x7d"

/-- The delimited data block
`` `<widget-data>${JSON.stringify({ tasks: todos })}</widget-data>` ``. -/
def widgetBlock (ts : List Todo) : String :=
  "<widget-data>" ++ jsonTasks ts ++ "</widget-data>"

/-- The response shape shared by all three handlers: a human-readable text
block, the `<widget-data>` text block, and the same `{ tasks }` object as
`structuredContent` and under the `openai/widgetData` metadata key. -/
def mkResponse (msg : String) (ts : List Todo) : ToolResponse :=
  { content := [⟨"text", msg⟩, ⟨"text", widgetBlock ts⟩]
    structuredContent := ts
    widgetData := ts }

/-- The identifier assigned when the counter reads `k`: `` `todo-${k}` ``
(JavaScript renders the integer counter in decimal). -/
def todoId (k : Nat) : String := "todo-" ++ Nat.repr k

/-- Handler `add_todo`: builds
`{ id: ` ++ "`todo-${nextId++}`" ++ `, title, completed: false }`, appends it
(`todos = [...todos, todo]`) and answers with the updated collection. -/
def addTodo (s : TodoState) (title : String) : ToolResponse × TodoState :=
  let todo : Todo := { id := todoId s.nextId, title := title, completed := false }
  let todos := s.todos ++ [todo]
  (mkResponse ("Added \"" ++ todo.title ++ "\".") todos,
   { todos := todos, nextId := s.nextId + 1 })

/-- Handler `complete_todo`: runs `todos.find(task => task.id === id)`; on a
miss it reports not-found over the unchanged collection, on a hit it maps
the collection setting `completed: true` on the matching item and stores
the new collection. -/
def completeTodo (s : TodoState) (id : String) : ToolResponse × TodoState :=
  match s.todos.find? (fun task => task.id == id) with
  | none =>
      (mkResponse ("Todo " ++ id ++ " was not found.") s.todos, s)
  | some todo =>
      let todos := s.todos.map (fun task =>
        if task.id == id then { task with completed := true } else task)
      (mkResponse ("Completed \"" ++ todo.title ++ "\".") todos,
       { s with todos := todos })

/-- Handler `list_todos`: reports `` `You have ${todos.length} todos.` ``
over the unchanged collection. -/
def listTodos (s : TodoState) : ToolResponse × TodoState :=
  (mkResponse ("You have " ++ Nat.repr s.todos.length ++ " todos.") s.todos, s)

/-- Folding `add_todo` over a list of titles, starting from a given state. -/
def addMany (s : TodoState) (titles : List String) : TodoState :=
  titles.foldl (fun s title => (addTodo s title).2) s

/-! The HTML Post-Processor (`processWidgetHtml` in the build script).

HTML documents are handled as character lists.  JavaScript
`html.includes(pat)` and `html.replace(pat, rep)` with a string pattern
(membership test, and replacement of the first occurrence only; the
replacement string here contains no `$` patterns) are modelled by
`includesSeq` and `replaceFirst`. -/

/-- JavaScript `html.includes(pat)`: does `pat` occur as a contiguous segment? -/
def includesSeq (pat : List Char) : List Char → Bool
  | [] => pat.isEmpty
  | c :: rest => pat.isPrefixOf (c :: rest) || includesSeq pat rest

/-- JavaScript `html.replace(pat, rep)` for a string pattern: replace the first
occurrence of `pat` by `rep`, leave the string unchanged when `pat` does
not occur. -/
def replaceFirst (pat rep : List Char) : List Char → List Char
  | [] => if pat.isEmpty then rep else []
  | c :: rest =>
    if pat.isPrefixOf (c :: rest) then rep ++ (c :: rest).drop pat.length
    else c :: replaceFirst pat rep rest

/-- The fixed data-injection script block of the build script, verbatim
(the content of the `dataInjectionScript` template literal, which
interpolates nothing). -/
def dataInjectionScript : String := "\n    <script>\n        // Multiple methods to receive data (OpenAI ChatGPT integration)\n        function checkAndRenderData() \x7b\n            // Method 1: Check window.openai.toolOutput\n            if (typeof window !== \x27undefined\x27 && window.openai?.toolOutput?.tasks) \x7b\n                if (window.renderTodos) window.renderTodos(window.openai.toolOutput.tasks);\n                return true;\n            \x7d\n            // Method 2: Check window.openai.toolResponseMetadata\n            if (typeof window !== \x27undefined\x27 && window.openai?.toolResponseMetadata?.[\x27openai/widgetData\x27]?.tasks) \x7b\n                if (window.renderTodos) window.renderTodos(window.openai.toolResponseMetadata[\x27openai/widgetData\x27].tasks);\n                return true;\n            \x7d\n            return false;\n        \x7d\n\n        // Method 3: Listen for postMessage events\n        window.addEventListener(\x27message\x27, (event) => \x7b\n            if (event.data.type === \x27structuredContent\x27 && event.data.content?.tasks) \x7b\n                if (window.renderTodos) window.renderTodos(event.data.content.tasks);\n            \x7d\n            if (event.data.type === \x27widgetData\x27 && event.data.tasks) \x7b\n                if (window.renderTodos) window.renderTodos(event.data.tasks);\n            \x7d\n        \x7d);\n\n        // Initial check on load\n        if (document.readyState === \x27loading\x27) \x7b\n            document.addEventListener(\x27DOMContentLoaded\x27, checkAndRenderData);\n        \x7d else \x7b\n            checkAndRenderData();\n        \x7d\n\n        // Poll for data (OpenAI may inject data after mount)\n        const interval = setInterval(() => \x7b\n            if (checkAndRenderData()) \x7b\n                clearInterval(interval);\n            \x7d\n        \x7d, 100);\n\n        // Stop polling after 5 seconds\n        setTimeout(() => clearInterval(interval), 5000);\n    </script>\n  "

/-- The literal closing body tag the post-processor searches for. -/
def bodyCloseTag : List Char := "</body>".data

/-- The injected script block as characters. -/
def scriptChars : List Char := dataInjectionScript.data

/-- The post-processor:
`if (html.includes("</body>")) html = html.replace("</body>", script ++ "</body>") else html += script`. -/
def processWidgetHtml (html : List Char) : List Char :=
  if includesSeq bodyCloseTag html then
    replaceFirst bodyCloseTag (scriptChars ++ bodyCloseTag) html
  else html ++ scriptChars

/-- Invariant of every state reachable in one process lifetime: the counter
is positive, and every stored identifier was minted by a counter value
strictly below the current one. -/
def StateInv (s : TodoState) : Prop :=
  0 < s.nextId ∧ ∀ t ∈ s.todos, ∃ k, 0 < k ∧ k < s.nextId ∧ t.id = todoId k

/-- A concrete state with one stored item, as after `add_todo("Buy milk")`. -/
def witnessState : TodoState :=
  { todos := [⟨"todo-1", "Buy milk", false⟩], nextId := 2 }

/-- Agreement of one response with a collection: the second content block
is the delimited `<widget-data>` wrapping of its JSON serialisation, and
the structured-content and metadata objects are that same collection. -/
def agreesWith (r : ToolResponse) (ts : List Todo) : Prop :=
  (∃ msg, r.content = [⟨"text", msg⟩, ⟨"text", widgetBlock ts⟩]) ∧
  r.structuredContent = ts ∧
  r.widgetData = ts

/-- Characters that `JSON.stringify` copies into a string literal without
escaping. -/
def jsonUnescaped (c : Char) : Prop :=
  c ≠ '"' ∧ c ≠ '\\' ∧ 32 ≤ c.toNat

/-! Generic properties of the post-processor. -/

theorem includesSeq_nil (pat : List Char) (hpat : pat ≠ []) :
    includesSeq pat [] = false := by
  simp [includesSeq, List.isEmpty_iff, hpat]

/-- Applying `replaceFirst` to a string that contains the pattern splits it at the
first occurrence and substitutes the replacement exactly there. -/
theorem replaceFirst_split (pat rep : List Char) (hpat : pat ≠ []) (s : List Char) :
    includesSeq pat s = true →
      ∃ pre post, s = pre ++ pat ++ post ∧
        replaceFirst pat rep s = pre ++ rep ++ post ∧
        ∀ i < pre.length, ¬ pat <+: s.drop i := by
  induction s with
  | nil => intro h; rw [includesSeq_nil pat hpat] at h; cases h
  | cons c rest ih =>
    intro h
    by_cases hp : pat.isPrefixOf (c :: rest) = true
    · obtain ⟨t, ht⟩ := List.isPrefixOf_iff_prefix.mp hp
      refine ⟨[], (c :: rest).drop pat.length, ?_, ?_, ?_⟩
      · rw [← ht, List.nil_append, List.drop_left]
      · simp [replaceFirst, hp]
      · intro i hi; simp at hi
    · have h' : includesSeq pat rest = true := by
        simp only [includesSeq, Bool.or_eq_true] at h
        rcases h with h | h
        · exact absurd h hp
        · exact h
      obtain ⟨pre, post, h1, h2, h3⟩ := ih h'
      refine ⟨c :: pre, post, ?_, ?_, ?_⟩
      · simp [h1]
      · simp [replaceFirst, hp, h2]
      · intro i hi
        match i with
        | 0 =>
          intro hcontra
          exact hp <| List.isPrefixOf_iff_prefix.mpr (by simpa using hcontra)
        | j + 1 =>
          have hj : j < pre.length := by simpa using hi
          simpa using h3 j hj

theorem replaceFirst_insert_length (s : List Char) (h : includesSeq bodyCloseTag s = true) :
    (replaceFirst bodyCloseTag (scriptChars ++ bodyCloseTag) s).length
      = s.length + scriptChars.length := by
  obtain ⟨pre, post, h1, h2, -⟩ :=
    replaceFirst_split bodyCloseTag (scriptChars ++ bodyCloseTag) (by decide) s h
  rw [h2, h1]
  simp [List.length_append]
  omega

theorem processWidgetHtml_length (html : List Char) :
    (processWidgetHtml html).length = html.length + scriptChars.length := by
  unfold processWidgetHtml
  by_cases h : includesSeq bodyCloseTag html = true
  · simp [h, replaceFirst_insert_length html h]
  · simp [h]

/-- C6: on input containing the literal `</body>`, the post-processor
inserts the fixed script block immediately before the first such tag,
preserving all remaining content verbatim; on input without the tag it
appends the script block, preserving the input as a prefix. -/
theorem processWidgetHtml_spec (html : List Char) :
    (includesSeq bodyCloseTag html = true →
      ∃ pre post, html = pre ++ bodyCloseTag ++ post ∧
        processWidgetHtml html = pre ++ scriptChars ++ bodyCloseTag ++ post ∧
        ∀ i < pre.length, ¬ bodyCloseTag <+: html.drop i) ∧
    (includesSeq bodyCloseTag html = false →
      processWidgetHtml html = html ++ scriptChars) := by
  constructor
  · intro h
    obtain ⟨pre, post, h1, h2, h3⟩ :=
      replaceFirst_split bodyCloseTag (scriptChars ++ bodyCloseTag) (by decide) html h
    exact ⟨pre, post, h1, by simp [processWidgetHtml, h, h2, List.append_assoc], h3⟩
  · intro h
    simp [processWidgetHtml, h]

/-- Witness for C6: both branches exercised on concrete documents. -/
theorem processWidgetHtml_spec_witness :
    (∃ pre post, "<html><body>x</body></html>".data = pre ++ bodyCloseTag ++ post ∧
      processWidgetHtml ("<html><body>x</body></html>".data)
        = pre ++ scriptChars ++ bodyCloseTag ++ post ∧
      ∀ i < pre.length, ¬ bodyCloseTag <+: ("<html><body>x</body></html>".data).drop i) ∧
    processWidgetHtml ("<p>x</p>".data) = "<p>x</p>".data ++ scriptChars :=
  ⟨(processWidgetHtml_spec ("<html><body>x</body></html>".data)).1 (by decide),
   (processWidgetHtml_spec ("<p>x</p>".data)).2 (by decide)⟩

/-- Counterexample to C7 as stated: re-applying the post-processor to its
own output inserts a second copy of the script block, so the function is
not idempotent. -/
theorem processWidgetHtml_idempotent_cex :
    processWidgetHtml (processWidgetHtml ("<body></body>".data)) ≠
      processWidgetHtml ("<body></body>".data) := by
  intro heq
  have h1 := processWidgetHtml_length (processWidgetHtml ("<body></body>".data))
  rw [heq] at h1
  have h2 : scriptChars ≠ [] := by decide
  exact h2 (List.length_eq_zero.mp (by omega))

/-- C7 amended: the post-processor is a pure function of its input (the
embedding is a function, so determinism is by construction), but it is not
idempotent: every application grows the document by exactly the script
length of the block, so applying it to its own output never reproduces that
output. -/
theorem processWidgetHtml_not_idempotent (html : List Char) :
    (processWidgetHtml html).length = html.length + scriptChars.length ∧
    processWidgetHtml (processWidgetHtml html) ≠ processWidgetHtml html := by
  refine ⟨processWidgetHtml_length html, fun heq => ?_⟩
  have h1 := processWidgetHtml_length (processWidgetHtml html)
  rw [heq] at h1
  have h2 : scriptChars ≠ [] := by decide
  exact h2 (List.length_eq_zero.mp (by omega))

/-! Injectivity of the decimal identifier rendering.

`Nat.repr` (the decimal rendering JavaScript applies to the counter) is
injective on positive numbers; hence so is `todoId`.  The proof bridges
the fuel-based core function `Nat.toDigitsCore` to `Nat.digits`. -/

theorem digitChar_inj_lt10 :
    ∀ a < 10, ∀ b < 10, Nat.digitChar a = Nat.digitChar b → a = b := by decide

theorem toDigitsCore_eq_digits (fuel : Nat) :
    ∀ (n : Nat) (ds : List Char), 0 < n → n < fuel →
      Nat.toDigitsCore 10 fuel n ds
        = ((Nat.digits 10 n).map Nat.digitChar).reverse ++ ds := by
  induction fuel with
  | zero => intro n ds h1 h2; omega
  | succ fuel ih =>
    intro n ds h1 h2
    simp only [Nat.toDigitsCore]
    by_cases hd : n / 10 = 0
    · rw [if_pos hd, Nat.digits_def' (by norm_num : 1 < 10) h1, hd, Nat.digits_zero]
      simp
    · rw [if_neg hd]
      have hpos : 0 < n / 10 := Nat.pos_of_ne_zero hd
      have hlt : n / 10 < fuel :=
        lt_of_lt_of_le (Nat.div_lt_self h1 (by norm_num)) (by omega)
      rw [ih (n / 10) (Nat.digitChar (n % 10) :: ds) hpos hlt,
        Nat.digits_def' (by norm_num : 1 < 10) h1]
      simp [List.append_assoc]

theorem toDigits_eq_digits (n : Nat) (h : 0 < n) :
    Nat.toDigits 10 n = ((Nat.digits 10 n).map Nat.digitChar).reverse := by
  rw [Nat.toDigits, toDigitsCore_eq_digits (n + 1) n [] h (Nat.lt_succ_self n),
    List.append_nil]

theorem map_digitChar_injOn :
    ∀ l₁ l₂ : List Nat, (∀ x ∈ l₁, x < 10) → (∀ x ∈ l₂, x < 10) →
      l₁.map Nat.digitChar = l₂.map Nat.digitChar → l₁ = l₂ := by
  intro l₁
  induction l₁ with
  | nil =>
    intro l₂ _ _ h
    cases l₂ with
    | nil => rfl
    | cons b bs => simp at h
  | cons a as ih =>
    intro l₂ h1 h2 h
    cases l₂ with
    | nil => simp at h
    | cons b bs =>
      simp only [List.map_cons, List.cons.injEq] at h
      have ha : a = b := digitChar_inj_lt10 a (h1 a (by simp)) b (h2 b (by simp)) h.1
      rw [ha, ih bs (fun x hx => h1 x (by simp [hx])) (fun x hx => h2 x (by simp [hx])) h.2]

theorem natRepr_inj {m n : Nat} (hm : 0 < m) (hn : 0 < n)
    (h : Nat.repr m = Nat.repr n) : m = n := by
  have h' : Nat.toDigits 10 m = Nat.toDigits 10 n := by
    have hdata := congrArg String.data h
    simpa [Nat.repr, List.asString] using hdata
  rw [toDigits_eq_digits m hm, toDigits_eq_digits n hn] at h'
  have h2 := List.reverse_injective h'
  have h3 := map_digitChar_injOn _ _
    (fun x hx => Nat.digits_lt_base (by norm_num) hx)
    (fun x hx => Nat.digits_lt_base (by norm_num) hx) h2
  calc m = Nat.ofDigits 10 (Nat.digits 10 m) := (Nat.ofDigits_digits 10 m).symm
    _ = Nat.ofDigits 10 (Nat.digits 10 n) := by rw [h3]
    _ = n := Nat.ofDigits_digits 10 n

theorem todoId_inj {m n : Nat} (hm : 0 < m) (hn : 0 < n)
    (h : todoId m = todoId n) : m = n := by
  have hdata := congrArg String.data h
  simp only [todoId, String.data_append] at hdata
  exact natRepr_inj hm hn (String.ext (List.append_cancel_left hdata))

/-! The tool host: claims about the three handlers. -/

theorem initialState_inv : StateInv initialState :=
  ⟨Nat.one_pos, by simp [initialState]⟩

theorem addTodo_preserves_inv (s : TodoState) (title : String) (h : StateInv s) :
    StateInv (addTodo s title).2 := by
  refine ⟨by simp [addTodo], ?_⟩
  intro t ht
  rcases List.mem_append.mp ht with hmem | hmem
  · obtain ⟨k, hk0, hklt, hkid⟩ := h.2 t hmem
    exact ⟨k, hk0, by simp [addTodo]; omega, hkid⟩
  · have : t = ⟨todoId s.nextId, title, false⟩ := by simpa using hmem
    exact ⟨s.nextId, h.1, by simp [addTodo], by rw [this]⟩

theorem completeTodo_preserves_inv (s : TodoState) (id : String) (h : StateInv s) :
    StateInv (completeTodo s id).2 := by
  unfold completeTodo
  cases hf : s.todos.find? (fun task => task.id == id) with
  | none => exact h
  | some todo =>
    refine ⟨h.1, ?_⟩
    intro t ht
    simp only [List.mem_map] at ht
    obtain ⟨u, hu, hut⟩ := ht
    obtain ⟨k, hk0, hklt, hkid⟩ := h.2 u hu
    refine ⟨k, hk0, hklt, ?_⟩
    rw [← hut]
    rcases Bool.eq_false_or_eq_true (u.id == id) with hc | hc <;> simp [hc] <;> exact hkid

/-- C1: on any reachable state and non-empty title, `add_todo` appends
exactly one new item at the end of the collection (length grows by one and
the old items are kept, unchanged and in order), and the new item carries
`completed = false`, the given title, and a fresh identifier distinct from
every stored one. -/
theorem addTodo_appends (s : TodoState) (title : String)
    (hinv : StateInv s) (_htitle : 1 ≤ title.length) :
    ∃ newTodo : Todo,
      (addTodo s title).2.todos = s.todos ++ [newTodo] ∧
      (addTodo s title).2.todos.length = s.todos.length + 1 ∧
      newTodo.completed = false ∧
      newTodo.title = title ∧
      newTodo.id = todoId s.nextId ∧
      ∀ t ∈ s.todos, t.id ≠ newTodo.id := by
  refine ⟨⟨todoId s.nextId, title, false⟩, rfl, by simp [addTodo], rfl, rfl, rfl, ?_⟩
  intro t ht heq
  obtain ⟨k, hk0, hklt, hkid⟩ := hinv.2 t ht
  have hkeq : k = s.nextId := todoId_inj hk0 hinv.1 (by rw [← hkid, heq])
  omega

theorem witnessState_inv : StateInv witnessState := by
  refine ⟨by decide, ?_⟩
  intro t ht
  have hmem : t = (⟨"todo-1", "Buy milk", false⟩ : Todo) := by
    simpa [witnessState] using ht
  exact ⟨1, by decide, by decide, by rw [hmem]; decide⟩

/-- Witness for C1 at the concrete state `witnessState`. -/
theorem addTodo_appends_witness :
    ∃ newTodo : Todo,
      (addTodo witnessState "Walk dog").2.todos = witnessState.todos ++ [newTodo] ∧
      (addTodo witnessState "Walk dog").2.todos.length = witnessState.todos.length + 1 ∧
      newTodo.completed = false ∧
      newTodo.title = "Walk dog" ∧
      newTodo.id = todoId witnessState.nextId ∧
      ∀ t ∈ witnessState.todos, t.id ≠ newTodo.id :=
  addTodo_appends witnessState "Walk dog" witnessState_inv (by decide)

theorem addMany_nextId : ∀ (titles : List String) (s : TodoState),
    (addMany s titles).nextId = s.nextId + titles.length := by
  intro titles
  induction titles with
  | nil => intro s; simp [addMany]
  | cons t ts ih =>
    intro s
    show (addMany (addTodo s t).2 ts).nextId = _
    rw [ih]
    simp [addTodo]
    omega

theorem addMany_map_id : ∀ (titles : List String) (s : TodoState),
    (addMany s titles).todos.map Todo.id
      = s.todos.map Todo.id
        ++ (List.range titles.length).map (fun k => todoId (s.nextId + k)) := by
  intro titles
  induction titles with
  | nil => intro s; simp [addMany]
  | cons t ts ih =>
    intro s
    show (addMany (addTodo s t).2 ts).todos.map Todo.id = _
    rw [ih]
    have h2 : (addTodo s t).2.todos = s.todos ++ [⟨todoId s.nextId, t, false⟩] := rfl
    have h3 : (addTodo s t).2.nextId = s.nextId + 1 := rfl
    have hfg : (fun k => todoId (s.nextId + 1 + k)) = fun k => todoId (s.nextId + (k + 1)) := by
      funext k
      congr 1
      omega
    rw [h2, h3, hfg]
    simp only [List.length_cons, List.range_succ_eq_map, List.map_append, List.map_cons,
      List.map_map, List.map_nil, Function.comp_def, Nat.succ_eq_add_one, Nat.add_zero,
      List.append_assoc, List.cons_append, List.nil_append]

/-- C2: starting from the initial state, a sequence of `add_todo` calls
assigns exactly the identifiers `todo-1`, `todo-2`, … in order (the counter
starts at 1 and increments on each add), and these identifiers are pairwise
distinct. -/
theorem addTodo_ids_distinct_increasing (titles : List String) :
    (addMany initialState titles).todos.map Todo.id
      = (List.range titles.length).map (fun k => todoId (k + 1)) ∧
    ((addMany initialState titles).todos.map Todo.id).Nodup ∧
    (addMany initialState titles).nextId = titles.length + 1 := by
  have hswap : (fun k => todoId (1 + k)) = fun k => todoId (k + 1) := by
    funext k
    congr 1
    omega
  have h : (addMany initialState titles).todos.map Todo.id
      = (List.range titles.length).map (fun k => todoId (k + 1)) := by
    rw [addMany_map_id titles initialState]
    have h1 : initialState.todos = [] := rfl
    have h2 : initialState.nextId = 1 := rfl
    rw [h1, h2, hswap]
    simp
  refine ⟨h, ?_, ?_⟩
  · rw [h]
    refine List.Nodup.map_on ?_ (List.nodup_range titles.length)
    intro x _ y _ hxy
    have := todoId_inj (Nat.succ_pos x) (Nat.succ_pos y) hxy
    omega
  · rw [addMany_nextId titles initialState]
    simp [initialState]
    omega

/-- C3: `complete_todo` with an identifier stored by no item leaves the
state unchanged and answers with the not-found text plus the unchanged
collection in all three representations. -/
theorem completeTodo_not_found (s : TodoState) (id : String)
    (h : ∀ t ∈ s.todos, t.id ≠ id) :
    (completeTodo s id).2 = s ∧
    (completeTodo s id).1.content =
      [⟨"text", "Todo " ++ id ++ " was not found."⟩, ⟨"text", widgetBlock s.todos⟩] ∧
    (completeTodo s id).1.structuredContent = s.todos ∧
    (completeTodo s id).1.widgetData = s.todos := by
  have hf : s.todos.find? (fun task => task.id == id) = none := by
    rw [List.find?_eq_none]
    intro t ht
    simpa using h t ht
  simp [completeTodo, hf, mkResponse]

/-- Witness for C3: completing the absent id `todo-9`. -/
theorem completeTodo_not_found_witness :
    (completeTodo witnessState "todo-9").2 = witnessState ∧
    (completeTodo witnessState "todo-9").1.content =
      [⟨"text", "Todo " ++ "todo-9" ++ " was not found."⟩,
       ⟨"text", widgetBlock witnessState.todos⟩] ∧
    (completeTodo witnessState "todo-9").1.structuredContent = witnessState.todos ∧
    (completeTodo witnessState "todo-9").1.widgetData = witnessState.todos :=
  completeTodo_not_found witnessState "todo-9" (by decide)

/-- Mapping the complete-update over a collection with pairwise-distinct
identifiers updates exactly the position holding the target id. -/
theorem map_complete_eq_set (l : List Todo) (id : String)
    (hnd : (l.map Todo.id).Nodup) (i : Nat) (hi : i < l.length)
    (hid : (l.get ⟨i, hi⟩).id = id) :
    l.map (fun task => if task.id == id then { task with completed := true } else task)
      = l.set i { l.get ⟨i, hi⟩ with completed := true } := by
  apply List.ext_getElem
  · simp
  · intro j h1 h2
    simp only [List.length_map] at h1
    rw [List.getElem_map, List.getElem_set]
    simp only [List.get_eq_getElem] at hid
    by_cases hji : i = j
    · subst hji
      simp [hid]
    · have hne : l[j].id ≠ id := by
        intro heq
        apply hji
        have hmli : i < (l.map Todo.id).length := by simpa using hi
        have hmlj : j < (l.map Todo.id).length := by simpa using h1
        have hmi : (l.map Todo.id).get ⟨i, hmli⟩ = (l.map Todo.id).get ⟨j, hmlj⟩ := by
          simp only [List.get_eq_getElem, List.getElem_map]
          rw [hid, heq]
        simp only [List.get_eq_getElem] at hmi
        exact hnd.getElem_inj_iff.mp hmi
      simp [hji, hne]

/-- C4: `complete_todo` on a stored identifier (identifiers being pairwise
distinct, as in every reachable state) replaces the collection by one equal
to the old except that the one matching item has `completed = true`; length
and counter are unchanged, and the response carries the confirmation text
and the updated collection in all three representations. -/
theorem completeTodo_found (s : TodoState) (id : String)
    (hmem : ∃ t ∈ s.todos, t.id = id)
    (hnd : (s.todos.map Todo.id).Nodup) :
    (completeTodo s id).2.nextId = s.nextId ∧
    (completeTodo s id).2.todos.length = s.todos.length ∧
    ∃ i, ∃ hi : i < s.todos.length,
      (s.todos.get ⟨i, hi⟩).id = id ∧
      (completeTodo s id).2.todos
        = s.todos.set i { s.todos.get ⟨i, hi⟩ with completed := true } ∧
      (completeTodo s id).1.content =
        [⟨"text", "Completed \"" ++ (s.todos.get ⟨i, hi⟩).title ++ "\"."⟩,
         ⟨"text", widgetBlock (completeTodo s id).2.todos⟩] ∧
      (completeTodo s id).1.structuredContent = (completeTodo s id).2.todos ∧
      (completeTodo s id).1.widgetData = (completeTodo s id).2.todos := by
  obtain ⟨t₀, ht₀, hid₀⟩ := hmem
  have hsome : (s.todos.find? (fun task => task.id == id)).isSome := by
    rw [List.find?_isSome]
    exact ⟨t₀, ht₀, by simp [hid₀]⟩
  obtain ⟨u, hu⟩ := Option.isSome_iff_exists.mp hsome
  have humem : u ∈ s.todos := List.mem_of_find?_eq_some hu
  have huid : u.id = id := by simpa using List.find?_some hu
  obtain ⟨i, hi, hgi⟩ := List.mem_iff_getElem.mp humem
  have hgiu : s.todos.get ⟨i, hi⟩ = u := by simpa [List.get_eq_getElem] using hgi
  have hct : completeTodo s id
      = (mkResponse ("Completed \"" ++ u.title ++ "\".")
          (s.todos.map (fun task =>
            if task.id == id then { task with completed := true } else task)),
         { s with todos := s.todos.map (fun task =>
            if task.id == id then { task with completed := true } else task) }) := by
    simp only [completeTodo, hu]
  have hmap := map_complete_eq_set s.todos id hnd i hi (by rw [hgiu]; exact huid)
  refine ⟨by rw [hct], ?_, i, hi, by rw [hgiu]; exact huid, ?_, ?_, ?_, ?_⟩
  · rw [hct]
    simp [hmap]
  · rw [hct]
    exact hmap
  · rw [hct, hgiu]
    rfl
  · rw [hct]
    rfl
  · rw [hct]
    rfl

/-- Witness for C4: completing `todo-1` in the one-item state. -/
theorem completeTodo_found_witness :
    (completeTodo witnessState "todo-1").2.nextId = witnessState.nextId ∧
    (completeTodo witnessState "todo-1").2.todos.length = witnessState.todos.length ∧
    ∃ i, ∃ hi : i < witnessState.todos.length,
      (witnessState.todos.get ⟨i, hi⟩).id = "todo-1" ∧
      (completeTodo witnessState "todo-1").2.todos
        = witnessState.todos.set i
            { witnessState.todos.get ⟨i, hi⟩ with completed := true } ∧
      (completeTodo witnessState "todo-1").1.content =
        [⟨"text", "Completed \"" ++ (witnessState.todos.get ⟨i, hi⟩).title ++ "\"."⟩,
         ⟨"text", widgetBlock (completeTodo witnessState "todo-1").2.todos⟩] ∧
      (completeTodo witnessState "todo-1").1.structuredContent
        = (completeTodo witnessState "todo-1").2.todos ∧
      (completeTodo witnessState "todo-1").1.widgetData
        = (completeTodo witnessState "todo-1").2.todos :=
  completeTodo_found witnessState "todo-1" (by decide) (by decide)

/-- C5: for an id present in the collection, running `complete_todo` twice
leaves the same final state as running it once. -/
theorem completeTodo_idempotent (s : TodoState) (id : String)
    (hmem : ∃ t ∈ s.todos, t.id = id) :
    (completeTodo (completeTodo s id).2 id).2 = (completeTodo s id).2 := by
  obtain ⟨t₀, ht₀, hid₀⟩ := hmem
  have hsome : (s.todos.find? (fun task => task.id == id)).isSome := by
    rw [List.find?_isSome]
    exact ⟨t₀, ht₀, by simp [hid₀]⟩
  obtain ⟨u, hu⟩ := Option.isSome_iff_exists.mp hsome
  have h1 : (completeTodo s id).2
      = { s with todos := s.todos.map (fun task =>
          if task.id == id then { task with completed := true } else task) } := by
    simp only [completeTodo, hu]
  have hmem2 : ((s.todos.map (fun task =>
      if task.id == id then { task with completed := true } else task)).find?
        (fun task => task.id == id)).isSome := by
    rw [List.find?_isSome]
    refine ⟨{ t₀ with completed := true }, ?_, by simp [hid₀]⟩
    have := List.mem_map_of_mem (fun task =>
      if task.id == id then { task with completed := true } else task) ht₀
    simpa [hid₀] using this
  obtain ⟨u₂, hu2⟩ := Option.isSome_iff_exists.mp hmem2
  have hff : (fun task : Todo => if task.id == id then { task with completed := true } else task) ∘
      (fun task : Todo => if task.id == id then { task with completed := true } else task)
      = fun task : Todo => if task.id == id then { task with completed := true } else task := by
    funext t
    by_cases hc : (t.id == id) = true <;> simp [Function.comp, hc]
  have h2 : (completeTodo (completeTodo s id).2 id).2
      = { s with todos := (s.todos.map (fun task =>
          if task.id == id then { task with completed := true } else task)).map (fun task =>
          if task.id == id then { task with completed := true } else task) } := by
    rw [h1]
    simp only [completeTodo, hu2]
  rw [h2, h1, List.map_map, hff]

/-- Witness for C5 on the one-item state. -/
theorem completeTodo_idempotent_witness :
    (completeTodo (completeTodo witnessState "todo-1").2 "todo-1").2
      = (completeTodo witnessState "todo-1").2 :=
  completeTodo_idempotent witnessState "todo-1" (by decide)

/-- C8: `list_todos` returns the state unchanged (so any number of calls
leaves it unchanged and cannot affect later operations), and its text block
reads `You have N todos.` for the current collection length. -/
theorem listTodos_pure (s : TodoState) :
    (listTodos s).2 = s ∧
    (listTodos s).1.content =
      [⟨"text", "You have " ++ Nat.repr s.todos.length ++ " todos."⟩,
       ⟨"text", widgetBlock s.todos⟩] ∧
    (listTodos s).1.structuredContent = s.todos ∧
    (listTodos s).1.widgetData = s.todos ∧
    ∀ n : Nat, (fun st => (listTodos st).2)^[n] s = s := by
  refine ⟨rfl, rfl, rfl, rfl, ?_⟩
  intro n
  have hid : (fun st : TodoState => (listTodos st).2) = id := funext fun st => rfl
  rw [hid, Function.iterate_id, id_eq]

/-- C9: every tool response (add, complete in both branches, list) carries
the same post-operation collection in all three representations. -/
theorem responses_agree (s : TodoState) (title id : String) :
    agreesWith (addTodo s title).1 (addTodo s title).2.todos ∧
    agreesWith (completeTodo s id).1 (completeTodo s id).2.todos ∧
    agreesWith (listTodos s).1 (listTodos s).2.todos := by
  refine ⟨⟨⟨_, rfl⟩, rfl, rfl⟩, ?_, ⟨⟨_, rfl⟩, rfl, rfl⟩⟩
  cases hf : s.todos.find? (fun task => task.id == id) with
  | none =>
    have h : completeTodo s id
        = (mkResponse ("Todo " ++ id ++ " was not found.") s.todos, s) := by
      simp only [completeTodo, hf]
    rw [h]
    exact ⟨⟨_, rfl⟩, rfl, rfl⟩
  | some todo =>
    have h : completeTodo s id
        = (mkResponse ("Completed \"" ++ todo.title ++ "\".")
            (s.todos.map (fun task =>
              if task.id == id then { task with completed := true } else task)),
           { s with todos := s.todos.map (fun task =>
              if task.id == id then { task with completed := true } else task) }) := by
      simp only [completeTodo, hf]
    rw [h]
    exact ⟨⟨_, rfl⟩, rfl, rfl⟩

theorem jsonEscapeChar_plain {c : Char} (h : jsonUnescaped c) :
    jsonEscapeChar c = String.singleton c := by
  obtain ⟨h1, h2, h3⟩ := h
  have key : ∀ d : Char, d.toNat < 32 → c ≠ d := by
    intro d hd heq
    subst heq
    omega
  simp [jsonEscapeChar, h1, h2,
    key (Char.ofNat 8) (by decide), key (Char.ofNat 12) (by decide),
    key (Char.ofNat 10) (by decide), key (Char.ofNat 13) (by decide),
    key (Char.ofNat 9) (by decide), Nat.not_lt.mpr h3]

theorem foldr_escape_plain : ∀ l : List Char, (∀ c ∈ l, jsonUnescaped c) →
    l.foldr (fun c acc => jsonEscapeChar c ++ acc) "" = String.mk l := by
  intro l
  induction l with
  | nil => intro _; rfl
  | cons c cs ih =>
    intro h
    simp only [List.foldr_cons]
    rw [ih (fun d hd => h d (List.mem_cons_of_mem c hd)),
      jsonEscapeChar_plain (h c (List.mem_cons_self c cs))]
    rfl

theorem jsonEscapeString_plain {s : String} (h : ∀ c ∈ s.data, jsonUnescaped c) :
    jsonEscapeString s = s := by
  rw [jsonEscapeString, foldr_escape_plain s.data h]

theorem jsonList_append_singleton : ∀ (xs : List String) (x : String),
    ∃ A, jsonList (xs ++ [x]) = A ++ x := by
  intro xs
  induction xs with
  | nil =>
    intro x
    refine ⟨"", ?_⟩
    show x = "" ++ x
    exact (String.ext (by simp [String.data_append]))
  | cons a as ih =>
    intro x
    cases as with
    | nil =>
      refine ⟨a ++ ",", ?_⟩
      show a ++ "," ++ x = a ++ "," ++ x
      rfl
    | cons b bs =>
      obtain ⟨A, hA⟩ := ih x
      refine ⟨a ++ "," ++ A, ?_⟩
      show a ++ "," ++ jsonList ((b :: bs) ++ [x]) = a ++ "," ++ A ++ x
      rw [hA]
      apply String.ext
      simp [String.data_append, List.append_assoc]

theorem widgetBlock_contains_title (ts : List Todo) (t : Todo) :
    ∃ u v, widgetBlock (ts ++ [t]) = u ++ jsonString t.title ++ v := by
  obtain ⟨A, hA⟩ := jsonList_append_singleton (ts.map jsonTask) (jsonTask t)
  refine ⟨"<widget-data>" ++ "\x7b\"tasks\":[" ++ A
      ++ ("\x7b\"id\":" ++ jsonString t.id ++ ",\"title\":"),
    (",\"completed\":" ++ jsonBool t.completed ++ "\x7d") ++ "]\x7d" ++ "</widget-data>", ?_⟩
  rw [widgetBlock, jsonTasks, List.map_append]
  simp only [List.map_cons, List.map_nil]
  rw [hA, jsonTask]
  apply String.ext
  simp [String.data_append, List.append_assoc]

/-- C10 amended: `add_todo` stores the accepted title exactly as given (no
trimming or sanitisation), and the raw title appears verbatim in the
confirmation text; inside the `<widget-data>` block the title appears in
its JSON-escaped form, hence verbatim exactly when it contains no
character that JSON string escaping alters (quote, backslash, control
characters). -/
theorem addTodo_title_stored_raw (s : TodoState) (title : String)
    (_htitle : 1 ≤ title.length) :
    (addTodo s title).2.todos.getLast? = some ⟨todoId s.nextId, title, false⟩ ∧
    (addTodo s title).1.content =
      [⟨"text", "Added \"" ++ title ++ "\"."⟩,
       ⟨"text", widgetBlock (addTodo s title).2.todos⟩] ∧
    title.data <:+: ("Added \"" ++ title ++ "\".").data ∧
    (∃ u v, widgetBlock (addTodo s title).2.todos = u ++ jsonString title ++ v) ∧
    ((∀ c ∈ title.data, jsonUnescaped c) →
      title.data <:+: (widgetBlock (addTodo s title).2.todos).data) := by
  have hlast : (addTodo s title).2.todos.getLast?
      = some ⟨todoId s.nextId, title, false⟩ := by
    show (s.todos ++ [(⟨todoId s.nextId, title, false⟩ : Todo)]).getLast? = _
    rw [List.getLast?_concat]
  have hcontains : ∃ u v,
      widgetBlock (addTodo s title).2.todos = u ++ jsonString title ++ v := by
    have := widgetBlock_contains_title s.todos ⟨todoId s.nextId, title, false⟩
    simpa using this
  refine ⟨hlast, rfl, ?_, hcontains, ?_⟩
  · refine ⟨"Added \"".data, "\".".data, ?_⟩
    simp [String.data_append, List.append_assoc]
  · intro hplain
    obtain ⟨u, v, huv⟩ := hcontains
    rw [huv, jsonString, jsonEscapeString_plain hplain]
    refine ⟨u.data ++ "\"".data, "\"".data ++ v.data, ?_⟩
    simp [String.data_append, List.append_assoc]

/-- Witness for C10 (amended) with a title containing HTML markup. -/
theorem addTodo_title_stored_raw_witness :
    (addTodo witnessState "<b>hi</b>").2.todos.getLast?
      = some ⟨todoId witnessState.nextId, "<b>hi</b>", false⟩ ∧
    (addTodo witnessState "<b>hi</b>").1.content =
      [⟨"text", "Added \"" ++ "<b>hi</b>" ++ "\"."⟩,
       ⟨"text", widgetBlock (addTodo witnessState "<b>hi</b>").2.todos⟩] ∧
    ("<b>hi</b>" : String).data <:+: ("Added \"" ++ "<b>hi</b>" ++ "\".").data ∧
    (∃ u v, widgetBlock (addTodo witnessState "<b>hi</b>").2.todos
      = u ++ jsonString "<b>hi</b>" ++ v) ∧
    ((∀ c ∈ ("<b>hi</b>" : String).data, jsonUnescaped c) →
      ("<b>hi</b>" : String).data
        <:+: (widgetBlock (addTodo witnessState "<b>hi</b>").2.todos).data) :=
  addTodo_title_stored_raw witnessState "<b>hi</b>" (by decide)

set_option maxRecDepth 4000 in
/-- Counterexample to C10 as stated: the accepted title `a"b` does not
appear verbatim inside the `<widget-data>` block (its quote is
JSON-escaped there). -/
theorem addTodo_title_verbatim_cex :
    1 ≤ ("a\"b" : String).length ∧
    (addTodo initialState "a\"b").1.content.getLast?
      = some ⟨"text", widgetBlock (addTodo initialState "a\"b").2.todos⟩ ∧
    ¬ ("a\"b" : String).data
        <:+: (widgetBlock (addTodo initialState "a\"b").2.todos).data := by
  refine ⟨by decide, by decide, by decide⟩
